import Mathlib

/-!
Shallow embedding of the `Ti18n` internationalization class
(src/unnamed/part_004, the variant with `translateTo`, global `translate`,
`setLanguage`/`getLanguage`) together with proofs about its key formatting,
translation, placeholder substitution, coverage validation and state
transition behaviour.

JavaScript strings are modelled as `List Char`; JavaScript `Map`s are
modelled as insertion-ordered association lists (`Map.prototype.set`
replaces in place or appends; `Map.prototype.get` returns the binding).
JavaScript numbers used by the coverage computation are modelled as `ℚ`
(the coverage values arising in the claims are exact small rationals).
Throwing methods are modelled by returning the error alongside the state
reached when the throw happens.
-/

namespace Ti18nSpec

/-- JavaScript strings are modelled as lists of characters. -/
abbrev Str := List Char

/-- Embed a Lean string literal as a modelled JavaScript string. -/
def str (s : String) : Str := s.toList

/-- Lookup in an insertion-ordered association list, mirroring
`Map.prototype.get` (returns the value bound to the key, if any). -/
def mapGet {β : Type} : List (Str × β) → Str → Option β
  | [], _ => none
  | (k, v) :: rest, key => if k = key then some v else mapGet rest key

/-- Update of an insertion-ordered association list, mirroring
`Map.prototype.set` (replaces the binding in place, or appends). -/
def mapSet {β : Type} : List (Str × β) → Str → β → List (Str × β)
  | [], key, val => [(key, val)]
  | (k, v) :: rest, key, val =>
    if k = key then (key, val) :: rest else (k, v) :: mapSet rest key val

/-- Build a `Map` from an entry list, mirroring `new Map(entries)`
(later entries for the same key overwrite earlier ones). -/
def mapOfEntries (entries : List (Str × Str)) : List (Str × Str) :=
  entries.foldl (fun m p => mapSet m p.1 p.2) []

/-- Does `pat` occur as a contiguous substring of the second argument?
Used only in hypotheses (e.g. "the bare key contains no separator"). -/
def occursB (pat : Str) : Str → Bool
  | [] => pat.isPrefixOf []
  | c :: rest => pat.isPrefixOf (c :: rest) || occursB pat rest

/-- Fuel-driven worker for `splitNE`.  The fuel is only a structural
termination device; `splitNE` always supplies enough of it. -/
def splitGo (s0 : Char) (srest : Str) : Nat → Str → List Str
  | _, [] => [[]]
  | 0, s => [s]
  | fuel + 1, c :: rest =>
    if (s0 :: srest).isPrefixOf (c :: rest) then
      [] :: splitGo s0 srest fuel (rest.drop srest.length)
    else
      match splitGo s0 srest fuel rest with
      | [] => [[c]]
      | h :: t => (c :: h) :: t

/-- Split a string on every occurrence of the non-empty separator
`s0 :: srest`, mirroring `String.prototype.split` for a non-empty
separator (leftmost, non-overlapping matches). -/
def splitNE (s0 : Char) (srest : Str) (s : Str) : List Str :=
  splitGo s0 srest s.length s

/-- `key.split(separator)`, mirroring JavaScript `String.prototype.split`.
For the empty separator JavaScript splits into individual characters. -/
def jsSplit (s sep : Str) : List Str :=
  match sep with
  | [] => s.map (fun c => [c])
  | s0 :: srest => splitNE s0 srest s

/-- Fuel-driven worker for `replaceAllNE`. -/
def replaceGo (p0 : Char) (prest rep : Str) : Nat → Str → Str
  | _, [] => []
  | 0, s => s
  | fuel + 1, c :: rest =>
    if (p0 :: prest).isPrefixOf (c :: rest) then
      rep ++ replaceGo p0 prest rep fuel (rest.drop prest.length)
    else
      c :: replaceGo p0 prest rep fuel rest

/-- Replace every (leftmost, non-overlapping) occurrence of the non-empty
pattern `p0 :: prest` by `rep`. -/
def replaceAllNE (p0 : Char) (prest rep s : Str) : Str :=
  replaceGo p0 prest rep s.length s

/-- Source: `const DEFAULT_I18N_HEADER = "i18n";` -/
def DEFAULT_I18N_HEADER : Str := str "i18n"

/-- Source: `const DEFAULT_I18N_SEPARATOR = "::";` -/
def DEFAULT_I18N_SEPARATOR : Str := str "::"

/-- Source interface `CoverageReport`.  `coverage` is a JavaScript number,
modelled as a rational. -/
structure CoverageReport where
  locale : Str
  missingKeys : List Str
  extraKeys : List Str
  coverage : ℚ
deriving DecidableEq

/-- Source interface `Internationalization`: two `Map<string, string>`s. -/
structure Internationalization where
  languages : List (Str × Str)
  dictionary : List (Str × Str)
deriving DecidableEq

/-- Source interface `InternationalizationData`: a plain object with two
optional sub-tables, each a `Record<string, string>` given by its
`Object.entries` list. -/
structure InternationalizationData where
  languages : Option (List (Str × Str))
  dictionary : Option (List (Str × Str))
deriving DecidableEq

/-- The private state of a `Ti18n` instance.  Field `_keys` keeps the
source's name for the canonical key list. -/
structure Ti18n where
  i18ns : List (Str × Internationalization)
  header : Str
  separator : Str
  coverageReports : List (Str × CoverageReport)
  currentLanguage : Option Str
  _keys : List Str
deriving DecidableEq

/-- Constructor options: `{header?, separator?, keys?}`. -/
structure Ti18nOptions where
  header : Option Str
  separator : Option Str
  keys : Option (List Str)

/-- JavaScript `a || b` specialised to strings: the empty string is falsy,
so `options.header || DEFAULT` falls back on `none` and on `""`. -/
def orDefault (o : Option Str) (d : Str) : Str :=
  match o with
  | none => d
  | some s => if s = [] then d else s

/-- Source `createKey`: `` `${this.header}${this.separator}${key}` ``. -/
def createKey (st : Ti18n) (key : Str) : Str :=
  st.header ++ st.separator ++ key

/-- Source `hasTranslationHeader`: `key.startsWith(this.header)`. -/
def hasTranslationHeader (st : Ti18n) (key : Str) : Bool :=
  st.header.isPrefixOf key

/-- Source `hasLocale`: `this.i18ns.has(locale)`. -/
def hasLocale (st : Ti18n) (locale : Str) : Bool :=
  (mapGet st.i18ns locale).isSome

/-- Source `getLocales`: `Array.from(this.i18ns.keys())`. -/
def getLocales (st : Ti18n) : List Str :=
  st.i18ns.map Prod.fst

/-- Source `getLanguage`: returns `this.currentLanguage`. -/
def getLanguage (st : Ti18n) : Option Str :=
  st.currentLanguage

/-- The message of the error thrown by `setLanguage` for an unloaded
locale: `` `Locale "${locale}" is not loaded` ``. -/
def errLocaleNotLoaded (locale : Str) : Str :=
  str "Locale \x22" ++ locale ++ str "\x22 is not loaded"

/-- Source `setLanguage`: throws when the locale is non-null and not
loaded, otherwise assigns `this.currentLanguage = locale`.  The result
pairs the state after the call with the thrown error, if any; the throw
happens before the assignment, so on error the state is the input state. -/
def setLanguage (st : Ti18n) (locale : Option Str) : Ti18n × Option Str :=
  match locale with
  | some l =>
    if hasLocale st l then ({ st with currentLanguage := some l }, none)
    else (st, some (errLocaleNotLoaded l))
  | none => ({ st with currentLanguage := none }, none)

/-- Source `validateLocale`: returns `null` when no keys are defined or
the locale is not loaded; otherwise diffs the canonical key list against
the dictionary keys, computes the coverage ratio, caches the report in
`this.coverageReports` and returns it.  The pair is (returned report,
state after the call). -/
def validateLocale (st : Ti18n) (locale : Str) :
    Option CoverageReport × Ti18n :=
  if st._keys.length = 0 ∨ hasLocale st locale = false then (none, st)
  else
    match mapGet st.i18ns locale with
    | none => (none, st)
    | some i18n =>
      let dictionaryKeys := i18n.dictionary.map Prod.fst
      let missingKeys :=
        st._keys.filter (fun key => decide (key ∉ dictionaryKeys))
      let extraKeys :=
        dictionaryKeys.filter (fun key => decide (key ∉ st._keys))
      let totalKeys : ℚ := st._keys.length
      let translatedKeys : ℚ := totalKeys - missingKeys.length
      let coverage : ℚ :=
        if st._keys.length > 0 then translatedKeys / totalKeys else 1
      let report : CoverageReport :=
        { locale := locale, missingKeys := missingKeys,
          extraKeys := extraKeys, coverage := coverage }
      (some report,
       { st with coverageReports := mapSet st.coverageReports locale report })

/-- The report record built inside `validateLocale` (source lines 203-221),
abstracted over the canonical keys and the locale's data. -/
def computedReport (keys : List Str) (i18n : Internationalization) (L : Str) :
    CoverageReport :=
  { locale := L,
    missingKeys := keys.filter
      (fun key => decide (key ∉ i18n.dictionary.map Prod.fst)),
    extraKeys := (i18n.dictionary.map Prod.fst).filter
      (fun key => decide (key ∉ keys)),
    coverage := if keys.length > 0
      then ((keys.length : ℚ) - ((keys.filter
        (fun key => decide (key ∉ i18n.dictionary.map Prod.fst))).length : ℚ)) /
        (keys.length : ℚ)
      else 1 }

/-- Source `getCoverageReport`: `this.coverageReports.get(locale) || null`. -/
def getCoverageReport (st : Ti18n) (locale : Str) : Option CoverageReport :=
  mapGet st.coverageReports locale

/-- Source `loadKeys`: replaces `this._keys` with a copy of the argument,
then re-validates every loaded locale. -/
def loadKeys (st : Ti18n) (keys : List Str) : Ti18n :=
  let st1 := { st with _keys := keys }
  (getLocales st1).foldl (fun s locale => (validateLocale s locale).2) st1

/-- Source `loadLocale`: defaults missing sub-tables to empty, converts
them to `Map`s, stores the entry for `locale`, and, when keys are defined,
re-validates that locale (the `console.warn` diagnostics are I/O and not
modelled). -/
def loadLocale (st : Ti18n) (locale : Str) (data : InternationalizationData) :
    Ti18n :=
  let languages := match data.languages with | none => [] | some ls => ls
  let dictionary := match data.dictionary with | none => [] | some d => d
  let i18n : Internationalization :=
    { languages := mapOfEntries languages,
      dictionary := mapOfEntries dictionary }
  let st1 := { st with i18ns := mapSet st.i18ns locale i18n }
  if st1._keys.length > 0 then (validateLocale st1 locale).2 else st1

/-- Source constructor: applies `||`-defaults for header and separator and
loads the initial canonical keys when provided. -/
def mkTi18n (options : Ti18nOptions) : Ti18n :=
  let st : Ti18n :=
    { i18ns := [],
      header := orDefault options.header DEFAULT_I18N_HEADER,
      separator := orDefault options.separator DEFAULT_I18N_SEPARATOR,
      coverageReports := [],
      currentLanguage := none,
      _keys := [] }
  match options.keys with
  | none => st
  | some ks => loadKeys st ks

/-- The two accepted shapes for translation parameters: a
`Map<string, string>` or a plain object (given by its `Object.entries`
list).  The source handles them in two separate branches. -/
inductive ArgsShape : Type
  | mapArgs (entries : List (Str × Str))
  | objArgs (entries : List (Str × Str))
deriving DecidableEq

/-- The JavaScript regular-expression syntax characters; a pattern made
only of other characters matches itself literally. -/
def regexSpecialChar (c : Char) : Bool :=
  c == '^' || c == '$' || c == '\\' || c == '.' || c == '*' || c == '+' ||
  c == '?' || c == '(' || c == ')' || c == '[' || c == ']' ||
  c == Char.ofNat 123 || c == Char.ofNat 125 || c == '|'

/-- The fragment of substitution entries on which the source's step
`value.replace(new RegExp("\\{" + name + "\\}", "g"), v)` coincides with
a global literal replacement of the substring `{name}`: the raw name is
interpolated into the pattern, so it must contain no regex syntax
character, and the replacement value must contain no dollar character
(otherwise its `$`-sequences would be interpreted).  Every theorem about
substitution restricts its entries to this fragment. -/
def substitutionModelled (name val : Str) : Bool :=
  name.all (fun c => !regexSpecialChar c) && val.all (fun c => !(c == '$'))

/-- One placeholder replacement step.  The source executes
`value.replace(new RegExp("\\{" + k + "\\}", "g"), v)`: a global regex
replacement whose pattern interpolates the raw parameter name between
escaped braces and whose replacement string is the raw value.  This
embedding performs a global literal replacement of the substring `{k}`;
that is exactly the source's behaviour when the entry lies in the
fragment `substitutionModelled`, and every theorem about substitution
assumes that fragment.  Outside it the source interprets the name as
regex syntax (or throws on an invalid pattern) and interprets dollar
sequences in the value, which this embedding does not model. -/
def substOne (t : Str) (name val : Str) : Str :=
  replaceAllNE '{' (name ++ [Char.ofNat 125]) val t

/-- Apply the optional `args` of `translateTo`, mirroring the source's
`Map` branch (`args.forEach`) and plain-object branch
(`Object.entries(args).forEach`), both of which fold the single
replacement step over the entries in order. -/
def applyArgs (args : Option ArgsShape) (t : Str) : Str :=
  match args with
  | none => t
  | some (.mapArgs es) => es.foldl (fun acc p => substOne acc p.1 p.2) t
  | some (.objArgs es) => es.foldl (fun acc p => substOne acc p.1 p.2) t

/-- Source `translateTo`: pass through non-translation keys, split on the
separator requiring exactly two parts, then look up the locale and the
bare key, encoding content gaps as sentinel strings, and finally apply
placeholder substitution.  `!value` is a truthiness test, so an empty
dictionary value also yields the missing-key sentinel. -/
def translateTo (st : Ti18n) (key locale : Str) (args : Option ArgsShape) :
    Str :=
  if hasTranslationHeader st key = false then key
  else
    let values := jsSplit key st.separator
    if values.length ≠ 2 then key
    else
      match mapGet st.i18ns locale with
      | none =>
        key ++ st.separator ++ locale ++ st.separator ++
          str "error-missing-locale"
      | some i18n =>
        let i18nKey := values.getD 1 []
        match mapGet i18n.dictionary i18nKey with
        | none =>
          key ++ st.separator ++ locale ++ st.separator ++
            str "error-missing-key"
        | some value =>
          if value = [] then
            key ++ st.separator ++ locale ++ st.separator ++
              str "error-missing-key"
          else applyArgs args value

/-- The message of the error thrown by `translate` when no global
language is set. -/
def errNoGlobalLanguage : Str :=
  str "No global language set. Use currentLanguage setter first or use translateTo() instead."

/-- Source `translate`: `if (!this.currentLanguage) throw ...`, a
truthiness test, so both `null` and the empty string trigger the throw;
otherwise delegates to `translateTo` with the current language. -/
def translate (st : Ti18n) (key : Str) (args : Option ArgsShape) :
    Except Str Str :=
  match st.currentLanguage with
  | none => .error errNoGlobalLanguage
  | some l =>
    if l = [] then .error errNoGlobalLanguage
    else .ok (translateTo st key l args)

/-- A default-configured instance: `new Ti18n()`. -/
def defaultTi18n : Ti18n := mkTi18n ⟨none, none, none⟩

/-- Locale "en" loaded with a dictionary whose only key itself contains
the separator. -/
def stMultiSep : Ti18n :=
  loadLocale defaultTi18n (str "en") ⟨none, some [(str "a::b", str "X")]⟩

/-- Canonical keys ["greeting", "farewell"] with locale "es" loaded with
the dictionary {greeting: "Hola"}. -/
def stCoverage : Ti18n :=
  loadLocale (loadKeys defaultTi18n [str "greeting", str "farewell"])
    (str "es") ⟨none, some [(str "greeting", str "Hola")]⟩

/-- The empty-string locale loaded and then set as the global language. -/
def stEmptyLang : Ti18n :=
  (setLanguage
    (loadLocale defaultTi18n (str "")
      ⟨none, some [(str "greeting", str "Hallo")]⟩)
    (some (str ""))).1

/-- Locale "en" loaded and then set as the global language. -/
def stGlobalEn : Ti18n :=
  (setLanguage
    (loadLocale defaultTi18n (str "en")
      ⟨none, some [(str "greeting", str "Hello")]⟩)
    (some (str "en"))).1

/-- Locale "en" loaded while the canonical key set is empty. -/
def stNoKeys : Ti18n :=
  loadLocale defaultTi18n (str "en") ⟨none, some [(str "greeting", str "Hello")]⟩

/-- Canonical key "greeting" with locale "en" mapping it to the empty
string. -/
def stEmptyValue : Ti18n :=
  loadLocale (loadKeys defaultTi18n [str "greeting"]) (str "en")
    ⟨none, some [(str "greeting", str "")]⟩

/-- Locale "en" loaded with a two-placeholder template. -/
def stSubst : Ti18n :=
  loadLocale defaultTi18n (str "en")
    ⟨none, some [(str "items", str "Hi {name}, you have {count} items")]⟩

/-- Locale "en" loaded with a template holding the single placeholder
referencing `a`, for the substitution order counterexample. -/
def stSubstOrder : Ti18n :=
  loadLocale defaultTi18n (str "en") ⟨none, some [(str "greet", str "{a}")]⟩

/-! ## Basic lemmas about the string and map primitives -/

theorem isPrefixOf_append_self (p t : Str) :
    p.isPrefixOf (p ++ t) = true :=
  List.isPrefixOf_iff_prefix.mpr (List.prefix_append p t)

theorem isPrefixOf_cons_ne {s0 c : Char} (h : c ≠ s0) (srest rest : Str) :
    (s0 :: srest).isPrefixOf (c :: rest) = false := by
  cases hx : (s0 :: srest).isPrefixOf (c :: rest) with
  | false => rfl
  | true =>
    obtain ⟨ts, hts⟩ := List.isPrefixOf_iff_prefix.mp hx
    rw [List.cons_append, List.cons.injEq] at hts
    exact absurd hts.1.symm h

theorem mapGet_mapSet_self {β : Type} (m : List (Str × β)) (k : Str) (v : β) :
    mapGet (mapSet m k v) k = some v := by
  induction m with
  | nil => simp [mapSet, mapGet]
  | cons p rest ih =>
    by_cases h : p.1 = k
    · simp [mapSet, h, mapGet]
    · simp [mapSet, h, mapGet, ih]

theorem mapGet_mapSet_ne {β : Type} (m : List (Str × β)) (k k' : Str) (v : β)
    (h : k' ≠ k) : mapGet (mapSet m k v) k' = mapGet m k' := by
  have hkk : ¬ (k = k') := fun hh => h hh.symm
  induction m with
  | nil => simp [mapSet, mapGet, hkk]
  | cons p rest ih =>
    by_cases h0 : p.1 = k
    · simp [mapSet, h0, mapGet, hkk]
    · simp [mapSet, h0, mapGet, ih]

theorem mapGet_some_mem {β : Type} (m : List (Str × β)) (k : Str) (v : β)
    (h : mapGet m k = some v) : k ∈ m.map Prod.fst := by
  induction m with
  | nil => simp [mapGet] at h
  | cons p rest ih =>
    by_cases h0 : p.1 = k
    · rw [List.map_cons, ← h0]
      exact List.mem_cons_self _ _
    · rw [show mapGet (p :: rest) k = if p.1 = k then some p.2 else mapGet rest k
            from rfl, if_neg h0] at h
      rw [List.map_cons]
      exact List.mem_cons_of_mem _ (ih h)

/-! ## Unfolding equations for the fuel-driven split and replace -/

theorem splitGo_nil (s0 : Char) (srest : Str) (f : Nat) :
    splitGo s0 srest f [] = [[]] := by
  cases f <;> rfl

theorem splitGo_congr (s0 : Char) (srest : Str) :
    ∀ f1 f2 s, s.length ≤ f1 → s.length ≤ f2 →
      splitGo s0 srest f1 s = splitGo s0 srest f2 s := by
  intro f1
  induction f1 with
  | zero =>
    intro f2 s h1 _
    have hs : s = [] := List.eq_nil_of_length_eq_zero (Nat.le_zero.mp h1)
    subst hs
    rw [splitGo_nil, splitGo_nil]
  | succ f ih =>
    intro f2 s h1 h2
    cases s with
    | nil => rw [splitGo_nil, splitGo_nil]
    | cons c rest =>
      cases f2 with
      | zero => simp at h2
      | succ f2' =>
        have hr1 : rest.length ≤ f := Nat.lt_succ_iff.mp h1
        have hr2 : rest.length ≤ f2' := Nat.lt_succ_iff.mp h2
        have hd1 : (rest.drop srest.length).length ≤ f := by
          simp only [List.length_drop]
          omega
        have hd2 : (rest.drop srest.length).length ≤ f2' := by
          simp only [List.length_drop]
          omega
        simp only [splitGo]
        rw [ih f2' (rest.drop srest.length) hd1 hd2, ih f2' rest hr1 hr2]

theorem splitNE_nil (s0 : Char) (srest : Str) :
    splitNE s0 srest [] = [[]] := rfl

theorem splitNE_cons (s0 : Char) (srest : Str) (c : Char) (rest : Str) :
    splitNE s0 srest (c :: rest) =
      if (s0 :: srest).isPrefixOf (c :: rest) then
        [] :: splitNE s0 srest (rest.drop srest.length)
      else
        match splitNE s0 srest rest with
        | [] => [[c]]
        | h :: t => (c :: h) :: t := by
  show splitGo s0 srest (rest.length + 1) (c :: rest) = _
  simp only [splitGo, splitNE]
  rw [splitGo_congr s0 srest rest.length (rest.drop srest.length).length
        (rest.drop srest.length)
        (by simp only [List.length_drop]; omega) (Nat.le_refl _)]

theorem replaceGo_nil (p0 : Char) (prest rep : Str) (f : Nat) :
    replaceGo p0 prest rep f [] = [] := by
  cases f <;> rfl

theorem replaceGo_congr (p0 : Char) (prest rep : Str) :
    ∀ f1 f2 s, s.length ≤ f1 → s.length ≤ f2 →
      replaceGo p0 prest rep f1 s = replaceGo p0 prest rep f2 s := by
  intro f1
  induction f1 with
  | zero =>
    intro f2 s h1 _
    have hs : s = [] := List.eq_nil_of_length_eq_zero (Nat.le_zero.mp h1)
    subst hs
    rw [replaceGo_nil, replaceGo_nil]
  | succ f ih =>
    intro f2 s h1 h2
    cases s with
    | nil => rw [replaceGo_nil, replaceGo_nil]
    | cons c rest =>
      cases f2 with
      | zero => simp at h2
      | succ f2' =>
        have hr1 : rest.length ≤ f := Nat.lt_succ_iff.mp h1
        have hr2 : rest.length ≤ f2' := Nat.lt_succ_iff.mp h2
        have hd1 : (rest.drop prest.length).length ≤ f := by
          simp only [List.length_drop]
          omega
        have hd2 : (rest.drop prest.length).length ≤ f2' := by
          simp only [List.length_drop]
          omega
        simp only [replaceGo]
        rw [ih f2' (rest.drop prest.length) hd1 hd2, ih f2' rest hr1 hr2]

theorem replaceAllNE_nil (p0 : Char) (prest rep : Str) :
    replaceAllNE p0 prest rep [] = [] := rfl

theorem replaceAllNE_cons (p0 : Char) (prest rep : Str) (c : Char) (rest : Str) :
    replaceAllNE p0 prest rep (c :: rest) =
      if (p0 :: prest).isPrefixOf (c :: rest) then
        rep ++ replaceAllNE p0 prest rep (rest.drop prest.length)
      else
        c :: replaceAllNE p0 prest rep rest := by
  show replaceGo p0 prest rep (rest.length + 1) (c :: rest) = _
  simp only [replaceGo, replaceAllNE]
  rw [replaceGo_congr p0 prest rep rest.length (rest.drop prest.length).length
        (rest.drop prest.length)
        (by simp only [List.length_drop]; omega) (Nat.le_refl _)]

/-! ## Splitting and replacing when the pattern does not occur -/

theorem splitNE_no_occur (s0 : Char) (srest : Str) :
    ∀ s, occursB (s0 :: srest) s = false → splitNE s0 srest s = [s] := by
  intro s
  induction s with
  | nil => intro _; rfl
  | cons c rest ih =>
    intro h
    rw [occursB, Bool.or_eq_false_iff] at h
    rw [splitNE_cons, h.1, if_neg (by simp), ih h.2]

theorem splitNE_sep_append (s0 : Char) (srest k : Str)
    (hk : occursB (s0 :: srest) k = false) :
    splitNE s0 srest ((s0 :: srest) ++ k) = [[], k] := by
  have hp : (s0 :: srest).isPrefixOf (s0 :: (srest ++ k)) = true :=
    isPrefixOf_append_self (s0 :: srest) k
  rw [show (s0 :: srest) ++ k = s0 :: (srest ++ k) from rfl, splitNE_cons,
    hp, if_pos rfl, List.drop_left, splitNE_no_occur s0 srest k hk]

theorem splitNE_clean (s0 : Char) (srest : Str) :
    ∀ h k, (∀ c ∈ h, c ≠ s0) → occursB (s0 :: srest) k = false →
      splitNE s0 srest (h ++ (s0 :: srest) ++ k) = [h, k] := by
  intro h
  induction h with
  | nil =>
    intro k _ hk
    simpa using splitNE_sep_append s0 srest k hk
  | cons a h' ih =>
    intro k hh hk
    have ha : a ≠ s0 := hh a (List.mem_cons_self a h')
    have hh' : ∀ c ∈ h', c ≠ s0 := fun c hc => hh c (List.mem_cons_of_mem a hc)
    rw [show (a :: h') ++ (s0 :: srest) ++ k = a :: (h' ++ (s0 :: srest) ++ k)
          by simp, splitNE_cons, isPrefixOf_cons_ne ha, if_neg (by simp),
      ih k hh' hk]

theorem replaceAllNE_no_occur (p0 : Char) (prest rep : Str) :
    ∀ s, occursB (p0 :: prest) s = false → replaceAllNE p0 prest rep s = s := by
  intro s
  induction s with
  | nil => intro _; rfl
  | cons c rest ih =>
    intro h
    rw [occursB, Bool.or_eq_false_iff] at h
    rw [replaceAllNE_cons, h.1, if_neg (by simp), ih h.2]

/-! ## Behaviour of `translateTo` on well-formed namespaced keys -/

theorem jsSplit_createKey (st : Ti18n) (b : Str) (s0 : Char) (srest : Str)
    (hsep : st.separator = s0 :: srest)
    (hh : ∀ c ∈ st.header, c ≠ s0)
    (hb : occursB (s0 :: srest) b = false) :
    jsSplit (createKey st b) st.separator = [st.header, b] := by
  rw [createKey, hsep]
  exact splitNE_clean s0 srest st.header b hh hb

theorem translateTo_createKey
    (st : Ti18n) (b L : Str) (args : Option ArgsShape)
    (s0 : Char) (srest : Str) (hsep : st.separator = s0 :: srest)
    (hh : ∀ c ∈ st.header, c ≠ s0)
    (hb : occursB (s0 :: srest) b = false) :
    translateTo st (createKey st b) L args =
      match mapGet st.i18ns L with
      | none =>
        createKey st b ++ st.separator ++ L ++ st.separator ++
          str "error-missing-locale"
      | some i18n =>
        match mapGet i18n.dictionary b with
        | none =>
          createKey st b ++ st.separator ++ L ++ st.separator ++
            str "error-missing-key"
        | some value =>
          if value = [] then
            createKey st b ++ st.separator ++ L ++ st.separator ++
              str "error-missing-key"
          else applyArgs args value := by
  have hpref : hasTranslationHeader st (createKey st b) = true := by
    rw [hasTranslationHeader, createKey, List.append_assoc]
    exact isPrefixOf_append_self _ _
  have hsplit : jsSplit (createKey st b) st.separator = [st.header, b] :=
    jsSplit_createKey st b s0 srest hsep hh hb
  simp only [translateTo, hpref, hsplit]
  simp [List.getD]

theorem translateTo_missing_locale
    (st : Ti18n) (b L : Str) (args : Option ArgsShape)
    (s0 : Char) (srest : Str) (hsep : st.separator = s0 :: srest)
    (hh : ∀ c ∈ st.header, c ≠ s0)
    (hb : occursB (s0 :: srest) b = false)
    (hL : mapGet st.i18ns L = none) :
    translateTo st (createKey st b) L args =
      createKey st b ++ st.separator ++ L ++ st.separator ++
        str "error-missing-locale" := by
  rw [translateTo_createKey st b L args s0 srest hsep hh hb]
  simp only [hL]

theorem translateTo_missing_key
    (st : Ti18n) (b L : Str) (args : Option ArgsShape)
    (s0 : Char) (srest : Str) (hsep : st.separator = s0 :: srest)
    (hh : ∀ c ∈ st.header, c ≠ s0)
    (hb : occursB (s0 :: srest) b = false)
    (i18n : Internationalization) (hL : mapGet st.i18ns L = some i18n)
    (ht : mapGet i18n.dictionary b = none ∨ mapGet i18n.dictionary b = some []) :
    translateTo st (createKey st b) L args =
      createKey st b ++ st.separator ++ L ++ st.separator ++
        str "error-missing-key" := by
  rw [translateTo_createKey st b L args s0 srest hsep hh hb]
  cases ht with
  | inl h => simp only [hL, h]
  | inr h => simp [hL, h]

theorem translateTo_resolved
    (st : Ti18n) (b L : Str) (args : Option ArgsShape)
    (s0 : Char) (srest : Str) (hsep : st.separator = s0 :: srest)
    (hh : ∀ c ∈ st.header, c ≠ s0)
    (hb : occursB (s0 :: srest) b = false)
    (i18n : Internationalization) (hL : mapGet st.i18ns L = some i18n)
    (t : Str) (ht : mapGet i18n.dictionary b = some t) (htne : t ≠ []) :
    translateTo st (createKey st b) L args = applyArgs args t := by
  rw [translateTo_createKey st b L args s0 srest hsep hh hb]
  simp only [hL, ht, if_neg htne]

theorem applyArgsList_no_occur (t : Str) :
    ∀ ps : List (Str × Str),
      (∀ p ∈ ps, occursB ('{' :: (p.1 ++ [Char.ofNat 125])) t = false) →
      ps.foldl (fun acc p => substOne acc p.1 p.2) t = t := by
  intro ps
  induction ps with
  | nil => intro _; rfl
  | cons p ps ih =>
    intro h
    rw [List.foldl_cons,
      show substOne t p.1 p.2 = t from
        replaceAllNE_no_occur '{' (p.1 ++ [Char.ofNat 125]) p.2 t
          (h p (List.mem_cons_self p ps))]
    exact ih (fun q hq => h q (List.mem_cons_of_mem p hq))

/-! ## Behaviour of `validateLocale` -/

theorem validateLocale_fields (st : Ti18n) (L : Str) :
    (validateLocale st L).2.i18ns = st.i18ns ∧
    (validateLocale st L).2.header = st.header ∧
    (validateLocale st L).2.separator = st.separator ∧
    (validateLocale st L).2._keys = st._keys ∧
    (validateLocale st L).2.currentLanguage = st.currentLanguage := by
  rw [validateLocale]
  split
  · exact ⟨rfl, rfl, rfl, rfl, rfl⟩
  · split
    · exact ⟨rfl, rfl, rfl, rfl, rfl⟩
    · exact ⟨rfl, rfl, rfl, rfl, rfl⟩

theorem validateLocale_reports_shape (st : Ti18n) (L : Str) :
    (validateLocale st L).2.coverageReports = st.coverageReports ∨
    ∃ rep, (validateLocale st L).1 = some rep ∧
      (validateLocale st L).2.coverageReports =
        mapSet st.coverageReports L rep := by
  rw [validateLocale]
  split
  · exact Or.inl rfl
  · split
    · exact Or.inl rfl
    · exact Or.inr ⟨_, rfl, rfl⟩

theorem validateLocale_empty (st : Ti18n) (L : Str) (h : st._keys = []) :
    validateLocale st L = (none, st) := by
  have hlen : st._keys.length = 0 := by rw [h]; rfl
  rw [validateLocale, if_pos (Or.inl hlen)]

theorem validateLocale_eq (st : Ti18n) (L : Str)
    (i18n : Internationalization)
    (hkeys : st._keys ≠ [])
    (hL : mapGet st.i18ns L = some i18n) :
    validateLocale st L =
      (some (computedReport st._keys i18n L),
       { st with
          coverageReports :=
            mapSet st.coverageReports L (computedReport st._keys i18n L) }) := by
  have hguard : ¬ (st._keys.length = 0 ∨ hasLocale st L = false) := by
    rw [hasLocale, hL]
    simp [List.length_eq_zero, hkeys]
  rw [validateLocale, if_neg hguard]
  simp only [hL]
  rfl

theorem length_filter_compl (p : Str → Bool) (C : List Str) :
    (C.filter p).length + (C.filter (fun a => !(p a))).length = C.length := by
  induction C with
  | nil => rfl
  | cons a C ih =>
    cases h : p a
    · rw [List.filter_cons_of_neg (by simp [h]), List.filter_cons_of_pos (by simp [h])]
      simp only [List.length_cons]
      omega
    · rw [List.filter_cons_of_pos h, List.filter_cons_of_neg (by simp [h])]
      simp only [List.length_cons]
      omega

theorem length_filter_not_mem (C D : List Str) :
    (C.filter (fun key => decide (key ∉ D))).length =
      C.length - (C.filter (fun key => decide (key ∈ D))).length := by
  have hfun : (fun key : Str => decide (key ∉ D)) =
      (fun key : Str => !(decide (key ∈ D))) := by
    funext key
    exact decide_not
  rw [hfun]
  have := length_filter_compl (fun key : Str => decide (key ∈ D)) C
  omega

theorem length_filter_mem_le (C D : List Str) :
    (C.filter (fun key => decide (key ∈ D))).length ≤ C.length :=
  List.length_filter_le _ _

/-! ## The claims -/

/-- C1: Round-trip of key creation and translation.  For every bare key
`k` containing no occurrence of the separator and every locale identifier
`L`, after `loadLocale(L, {dictionary: {k: "v"}})` with a non-empty value
`v` on a default-configured instance whose canonical key set is `{k}`,
`translateTo(createKey(k), L)` with no params returns exactly `v`. -/
theorem round_trip_create_translate (k v L : Str)
    (hk : occursB (str "::") k = false) (hv : v ≠ []) :
    translateTo
      (loadLocale (mkTi18n ⟨none, none, some [k]⟩) L ⟨none, some [(k, v)]⟩)
      (createKey
        (loadLocale (mkTi18n ⟨none, none, some [k]⟩) L ⟨none, some [(k, v)]⟩)
        k)
      L none = v := by
  obtain ⟨hi, hhd, hsp, -, -⟩ := validateLocale_fields
    { i18ns := [(L, (⟨[], [(k, v)]⟩ : Internationalization))],
      header := str "i18n", separator := str "::",
      coverageReports := [], currentLanguage := none, _keys := [k] } L
  exact translateTo_resolved _ k L none ':' [':'] hsp
    (by rw [hhd]; show ∀ c ∈ str "i18n", c ≠ ':'; decide) hk ⟨[], [(k, v)]⟩
    (by rw [hi]; exact mapGet_mapSet_self [] L _) v
    (mapGet_mapSet_self [] k v) hv

/-- Witness for the round-trip theorem at `k` = "greeting", `v` = "Hello",
`L` = "en". -/
theorem round_trip_create_translate_witness :
    occursB (str "::") (str "greeting") = false ∧
    str "Hello" ≠ [] ∧
    translateTo
      (loadLocale (mkTi18n ⟨none, none, some [str "greeting"]⟩) (str "en")
        ⟨none, some [(str "greeting", str "Hello")]⟩)
      (createKey
        (loadLocale (mkTi18n ⟨none, none, some [str "greeting"]⟩) (str "en")
          ⟨none, some [(str "greeting", str "Hello")]⟩)
        (str "greeting"))
      (str "en") none = str "Hello" :=
  ⟨by decide, by decide,
   round_trip_create_translate (str "greeting") (str "Hello") (str "en")
     (by decide) (by decide)⟩

/-- C3: Sentinel encoding of content gaps in `translateTo`.  For every
well-formed namespaced key `createKey(b)` with a separator-free bare key
`b` and every locale `L`: `translateTo` is a total function (the
embedding returns a string in every case, never throwing); when `L` has
no loaded data the result is exactly
`key ++ separator ++ L ++ separator ++ "error-missing-locale"`; when `L`
is loaded but `b` is absent from its dictionary or maps to the empty
string, the result is exactly
`key ++ separator ++ L ++ separator ++ "error-missing-key"`. -/
theorem translateTo_sentinel_gaps (st : Ti18n) (b L : Str)
    (args : Option ArgsShape)
    (s0 : Char) (srest : Str) (hsep : st.separator = s0 :: srest)
    (hh : ∀ c ∈ st.header, c ≠ s0)
    (hb : occursB (s0 :: srest) b = false) :
    (mapGet st.i18ns L = none →
      translateTo st (createKey st b) L args =
        createKey st b ++ st.separator ++ L ++ st.separator ++
          str "error-missing-locale") ∧
    (∀ i18n, mapGet st.i18ns L = some i18n →
      (mapGet i18n.dictionary b = none ∨ mapGet i18n.dictionary b = some []) →
      translateTo st (createKey st b) L args =
        createKey st b ++ st.separator ++ L ++ st.separator ++
          str "error-missing-key") :=
  ⟨fun hL => translateTo_missing_locale st b L args s0 srest hsep hh hb hL,
   fun i18n hL ht => translateTo_missing_key st b L args s0 srest hsep hh hb
     i18n hL ht⟩

/-- Witness for the sentinel theorem: the missing-locale sentinel on a
fresh instance for locale "zz", and the missing-key sentinel for a key
mapped to the empty string in the loaded locale "en". -/
theorem translateTo_sentinel_gaps_witness :
    translateTo defaultTi18n (createKey defaultTi18n (str "greeting"))
      (str "zz") none =
      createKey defaultTi18n (str "greeting") ++ defaultTi18n.separator ++
        str "zz" ++ defaultTi18n.separator ++ str "error-missing-locale" ∧
    translateTo stEmptyValue (createKey stEmptyValue (str "greeting"))
      (str "en") none =
      createKey stEmptyValue (str "greeting") ++ stEmptyValue.separator ++
        str "en" ++ stEmptyValue.separator ++ str "error-missing-key" :=
  ⟨(translateTo_sentinel_gaps defaultTi18n (str "greeting") (str "zz") none
      ':' [':'] rfl (by decide) (by decide)).1 rfl,
   (translateTo_sentinel_gaps stEmptyValue (str "greeting") (str "en") none
      ':' [':'] (by decide) (by decide) (by decide)).2
     ⟨[], [(str "greeting", str "")]⟩ (by decide) (Or.inr (by decide))⟩

/-- C4 (amended): Placeholder substitution.  The source substitutes via
`value.replace(new RegExp("\\{" + name + "\\}", "g"), value)`; for
params whose entries lie in the literally-modelled fragment
(`substitutionModelled`: the raw interpolated name holds no regex syntax
character and the value holds no dollar character — outside it the name
is interpreted as regex syntax and `$`-sequences in the value are
interpreted), the result of `translateTo` is the in-order fold, over the
entries, of one global replacement of every occurrence of the literal
substring `{name}` by the value; `Map`-shaped and plain-object-shaped
params with the same entry sequence produce the same output; and when no
entry's `{name}` placeholder occurs in the template, the template is
returned verbatim.  Entry order matters: each entry's replacement also
rewrites text introduced by earlier entries, so equal entry sets in
different orders can differ (see the counterexample). -/
theorem translateTo_substitution (st : Ti18n) (b L : Str)
    (s0 : Char) (srest : Str) (hsep : st.separator = s0 :: srest)
    (hh : ∀ c ∈ st.header, c ≠ s0)
    (hb : occursB (s0 :: srest) b = false)
    (i18n : Internationalization) (hL : mapGet st.i18ns L = some i18n)
    (t : Str) (ht : mapGet i18n.dictionary b = some t) (htne : t ≠ []) :
    (∀ ps, (∀ p ∈ ps, substitutionModelled p.1 p.2 = true) →
      translateTo st (createKey st b) L (some (.mapArgs ps)) =
        ps.foldl (fun acc p =>
          replaceAllNE '{' (p.1 ++ [Char.ofNat 125]) p.2 acc) t) ∧
    (∀ ps, (∀ p ∈ ps, substitutionModelled p.1 p.2 = true) →
      translateTo st (createKey st b) L (some (.mapArgs ps)) =
        translateTo st (createKey st b) L (some (.objArgs ps))) ∧
    (∀ ps, (∀ p ∈ ps, substitutionModelled p.1 p.2 = true) →
      (∀ p ∈ ps, occursB ('{' :: (p.1 ++ [Char.ofNat 125])) t = false) →
      translateTo st (createKey st b) L (some (.mapArgs ps)) = t ∧
      translateTo st (createKey st b) L (some (.objArgs ps)) = t) := by
  have hmap : ∀ ps, translateTo st (createKey st b) L (some (.mapArgs ps)) =
      ps.foldl (fun acc p => substOne acc p.1 p.2) t := fun ps =>
    translateTo_resolved st b L (some (.mapArgs ps)) s0 srest hsep hh hb
      i18n hL t ht htne
  have hobj : ∀ ps, translateTo st (createKey st b) L (some (.objArgs ps)) =
      ps.foldl (fun acc p => substOne acc p.1 p.2) t := fun ps =>
    translateTo_resolved st b L (some (.objArgs ps)) s0 srest hsep hh hb
      i18n hL t ht htne
  refine ⟨fun ps _ => hmap ps, fun ps _ => (hmap ps).trans (hobj ps).symm,
    fun ps _ hocc => ?_⟩
  have hid := applyArgsList_no_occur t ps hocc
  exact ⟨(hmap ps).trans hid, (hobj ps).trans hid⟩

/-- Witness for the substitution theorem: the spec's example template
with params supplied in both shapes (all entries inside the modelled
fragment), and a template without matching placeholders left verbatim. -/
theorem translateTo_substitution_witness :
    translateTo stSubst (createKey stSubst (str "items")) (str "en")
      (some (.mapArgs [(str "name", str "Al"), (str "count", str "3")])) =
      str "Hi Al, you have 3 items" ∧
    translateTo stSubst (createKey stSubst (str "items")) (str "en")
      (some (.objArgs [(str "name", str "Al"), (str "count", str "3")])) =
      str "Hi Al, you have 3 items" ∧
    translateTo stSubst (createKey stSubst (str "items")) (str "en")
      (some (.mapArgs [(str "other", str "Z")])) =
      str "Hi {name}, you have {count} items" := by
  have h := translateTo_substitution stSubst (str "items") (str "en")
    ':' [':'] (by decide) (by decide) (by decide)
    ⟨[], [(str "items", str "Hi {name}, you have {count} items")]⟩ (by decide)
    (str "Hi {name}, you have {count} items") (by decide) (by decide)
  refine ⟨(h.1 _ (by decide)).trans (by decide),
    ((h.2.1 _ (by decide)).symm.trans (h.1 _ (by decide))).trans (by decide),
    (h.2.2 [(str "other", str "Z")] (by decide) (by decide)).1⟩

/-- C4 counterexample: `Map`-shaped and plain-object-shaped params
containing the same (name, value) pairs — the pair set holding
`(a, "{b}")` and `(b, "Z")`, every entry inside the literally-modelled
fragment where this embedding is exactly the source — produce different
outputs when their entry orders differ: on the template "{a}", the `Map`
insertion order `b, a` yields "{b}", while the object entry order `a, b`
cascades ("{b}" introduced by the first entry is rewritten by the
second) and yields "Z".  This refutes both "params containing the same
(name, value) pairs produce the same output" and "no recursion". -/
theorem translateTo_substitution_order_counterexample :
    translateTo stSubstOrder (createKey stSubstOrder (str "greet")) (str "en")
        (some (.mapArgs [(str "b", str "Z"), (str "a", str "{b}")])) =
      str "{b}" ∧
    translateTo stSubstOrder (createKey stSubstOrder (str "greet")) (str "en")
        (some (.objArgs [(str "a", str "{b}"), (str "b", str "Z")])) =
      str "Z" ∧
    substitutionModelled (str "a") (str "{b}") = true ∧
    substitutionModelled (str "b") (str "Z") = true ∧
    str "{b}" ≠ str "Z" := by
  decide

/-- C2: Coverage computation.  For every loaded locale and every
non-empty canonical key list, `validateLocale` returns and caches a
report whose `missingKeys` are the canonical keys absent from the
dictionary in canonical order, whose `extraKeys` are the dictionary keys
absent from the canonical list, and whose `coverage` is
`(n - len(missingKeys)) / n`; with `m` the number of canonical keys
present in the dictionary and `n` the number of canonical keys,
`len(missingKeys) = n - m`, `coverage = m / n`, and `coverage = 1` iff
`missingKeys` is empty. -/
theorem validateLocale_coverage (st : Ti18n) (L : Str)
    (i18n : Internationalization)
    (hkeys : st._keys ≠ [])
    (hL : mapGet st.i18ns L = some i18n) :
    ∃ report : CoverageReport,
      validateLocale st L =
        (some report,
         { st with
            coverageReports := mapSet st.coverageReports L report }) ∧
      report.missingKeys = st._keys.filter
        (fun key => decide (key ∉ i18n.dictionary.map Prod.fst)) ∧
      report.extraKeys = (i18n.dictionary.map Prod.fst).filter
        (fun key => decide (key ∉ st._keys)) ∧
      report.coverage =
        ((st._keys.length : ℚ) - (report.missingKeys.length : ℚ)) /
          (st._keys.length : ℚ) ∧
      report.missingKeys.length =
        st._keys.length - (st._keys.filter
          (fun key => decide (key ∈ i18n.dictionary.map Prod.fst))).length ∧
      report.coverage =
        ((st._keys.filter
          (fun key => decide (key ∈ i18n.dictionary.map Prod.fst))).length : ℚ) /
          (st._keys.length : ℚ) ∧
      (report.coverage = 1 ↔ report.missingKeys = []) ∧
      getCoverageReport (validateLocale st L).2 L = some report := by
  have hlen : 0 < st._keys.length := List.length_pos.mpr hkeys
  have hq : (st._keys.length : ℚ) ≠ 0 := by
    exact_mod_cast Nat.pos_iff_ne_zero.mp hlen
  refine ⟨computedReport st._keys i18n L, validateLocale_eq st L i18n hkeys hL,
    rfl, rfl, ?_, ?_, ?_, ?_, ?_⟩
  · show (if st._keys.length > 0 then _ else (1 : ℚ)) = _
    rw [if_pos hlen]
    rfl
  · exact length_filter_not_mem st._keys (i18n.dictionary.map Prod.fst)
  · show (if st._keys.length > 0 then _ else (1 : ℚ)) = _
    rw [if_pos hlen,
      length_filter_not_mem st._keys (i18n.dictionary.map Prod.fst)]
    have hm := length_filter_mem_le st._keys (i18n.dictionary.map Prod.fst)
    rw [Nat.cast_sub hm]
    ring_nf
  · show (if st._keys.length > 0 then _ else (1 : ℚ)) = 1 ↔ _
    rw [if_pos hlen, div_eq_one_iff_eq hq, sub_eq_self]
    rw [show ((st._keys.filter
        (fun key => decide (key ∉ i18n.dictionary.map Prod.fst))).length : ℚ)
        = 0 ↔ (st._keys.filter
        (fun key => decide (key ∉ i18n.dictionary.map Prod.fst))).length = 0
      from by exact_mod_cast Iff.rfl]
    rw [List.length_eq_zero]
    exact Iff.rfl
  · rw [validateLocale_eq st L i18n hkeys hL]
    exact mapGet_mapSet_self _ L _

/-- Witness for the coverage theorem at the spec's example: canonical
keys ["greeting", "farewell"], locale "es" loaded with only "greeting"
translated. -/
theorem validateLocale_coverage_witness :
    ∃ report : CoverageReport,
      validateLocale stCoverage (str "es") =
        (some report,
         { stCoverage with
            coverageReports :=
              mapSet stCoverage.coverageReports (str "es") report }) ∧
      report.missingKeys = stCoverage._keys.filter
        (fun key => decide (key ∉
          ((⟨[], [(str "greeting", str "Hola")]⟩ :
            Internationalization)).dictionary.map Prod.fst)) ∧
      report.extraKeys = (((⟨[], [(str "greeting", str "Hola")]⟩ :
          Internationalization)).dictionary.map Prod.fst).filter
        (fun key => decide (key ∉ stCoverage._keys)) ∧
      report.coverage =
        ((stCoverage._keys.length : ℚ) - (report.missingKeys.length : ℚ)) /
          (stCoverage._keys.length : ℚ) ∧
      report.missingKeys.length =
        stCoverage._keys.length - (stCoverage._keys.filter
          (fun key => decide (key ∈
            ((⟨[], [(str "greeting", str "Hola")]⟩ :
              Internationalization)).dictionary.map Prod.fst))).length ∧
      report.coverage =
        ((stCoverage._keys.filter
          (fun key => decide (key ∈
            ((⟨[], [(str "greeting", str "Hola")]⟩ :
              Internationalization)).dictionary.map Prod.fst))).length : ℚ) /
          (stCoverage._keys.length : ℚ) ∧
      (report.coverage = 1 ↔ report.missingKeys = []) ∧
      getCoverageReport (validateLocale stCoverage (str "es")).2 (str "es") =
        some report :=
  validateLocale_coverage stCoverage (str "es")
    ⟨[], [(str "greeting", str "Hola")]⟩ (by decide) (by decide)

/-- C5 (amended): Malformed-key handling in `translateTo`.  The key is
split on every occurrence of the separator (not only the first); whenever
the split does not yield exactly two parts — no separator present, or
more than one occurrence — the original key is returned unchanged.  In
particular a key `header ++ separator ++ b` where `b` itself contains the
separator is returned unchanged rather than looked up under `b`. -/
theorem translateTo_split_on_all (st : Ti18n) (key L : Str)
    (args : Option ArgsShape)
    (hpref : hasTranslationHeader st key = true)
    (hlen : (jsSplit key st.separator).length ≠ 2) :
    translateTo st key L args = key := by
  rw [translateTo, hpref]
  simp [hlen]

/-- Witness for the amended malformed-key theorem: the three-part key
"i18n::a::b" is returned unchanged. -/
theorem translateTo_split_on_all_witness :
    translateTo stMultiSep (str "i18n::a::b") (str "en") none =
      str "i18n::a::b" :=
  translateTo_split_on_all stMultiSep (str "i18n::a::b") (str "en") none
    (by decide) (by decide)

/-- C5 counterexample: the claim as stated predicts that
"i18n::a::b" is split on the first separator only and looked up under the
bare key "a::b" — which locale "en" maps to "X" — rather than returned
unchanged.  The code returns the key unchanged, and the result differs
from the claimed lookup value "X". -/
theorem translateTo_split_first_counterexample :
    translateTo stMultiSep (str "i18n::a::b") (str "en") none =
      str "i18n::a::b" ∧
    (mapGet stMultiSep.i18ns (str "en")).map
      (fun i => mapGet i.dictionary (str "a::b")) = some (some (str "X")) ∧
    translateTo stMultiSep (str "i18n::a::b") (str "en") none ≠ str "X" := by
  decide

/-- C6 (amended): Global-locale translate.  `translate(key, params?)`
throws the configuration error if and only if the current language is
unset or is the empty string (the source guard `!this.currentLanguage`
is a truthiness test, so a loaded empty-string locale set as the global
language still throws); whenever a non-empty global language `l` is set,
`translate(key, params?)` returns exactly `translateTo(key, l, params?)`
for every key and params. -/
theorem translate_eq_of_none (st : Ti18n) (key : Str)
    (args : Option ArgsShape) (h : st.currentLanguage = none) :
    translate st key args = Except.error errNoGlobalLanguage := by
  rw [translate, h]

theorem translate_eq_of_some (st : Ti18n) (key : Str)
    (args : Option ArgsShape) (l : Str) (h : st.currentLanguage = some l) :
    translate st key args =
      if l = [] then Except.error errNoGlobalLanguage
      else Except.ok (translateTo st key l args) := by
  rw [translate, h]

theorem translate_uses_global_language (st : Ti18n) (key : Str)
    (args : Option ArgsShape) :
    ((∃ e, translate st key args = Except.error e) ↔
      (st.currentLanguage = none ∨ st.currentLanguage = some [])) ∧
    (∀ l, st.currentLanguage = some l → l ≠ [] →
      translate st key args = Except.ok (translateTo st key l args)) := by
  constructor
  · cases hc : st.currentLanguage with
    | none =>
      exact ⟨fun _ => Or.inl rfl,
        fun _ => ⟨errNoGlobalLanguage, translate_eq_of_none st key args hc⟩⟩
    | some l =>
      by_cases hl : l = []
      · subst hl
        refine ⟨fun _ => Or.inr rfl, fun _ => ⟨errNoGlobalLanguage, ?_⟩⟩
        rw [translate_eq_of_some st key args [] hc, if_pos rfl]
      · constructor
        · intro he
          obtain ⟨e, he⟩ := he
          rw [translate_eq_of_some st key args l hc, if_neg hl] at he
          cases he
        · intro h
          cases h with
          | inl h => cases h
          | inr h =>
            cases h
            exact absurd rfl hl
  · intro l hl hne
    rw [translate_eq_of_some st key args l hl, if_neg hne]

/-- Witness for the amended global-translate theorem: with "en" loaded
and set, `translate` delegates to `translateTo` for "en". -/
theorem translate_uses_global_language_witness :
    translate stGlobalEn (str "i18n::greeting") none =
      Except.ok (translateTo stGlobalEn (str "i18n::greeting") (str "en") none) :=
  (translate_uses_global_language stGlobalEn (str "i18n::greeting") none).2
    (str "en") (by decide) (by decide)

/-- C6 counterexample: the claim's "if and only if no global language is
currently set" fails: in `stEmptyLang` the global language *is* set (to
the loaded empty-string locale, as `getLanguage` reports), yet
`translate` still throws the configuration error, and its result differs
from `translateTo` under that language. -/
theorem translate_throws_with_language_set_counterexample :
    getLanguage stEmptyLang = some (str "") ∧
    translate stEmptyLang (str "i18n::greeting") none =
      Except.error errNoGlobalLanguage ∧
    translate stEmptyLang (str "i18n::greeting") none ≠
      Except.ok (translateTo stEmptyLang (str "i18n::greeting") (str "") none) :=
  ⟨rfl, rfl, fun h => by cases h⟩

/-- C7: `setLanguage` atomicity.  For every locale `L` that is not loaded,
`setLanguage(L)` throws and leaves the current-language state, as
observed by `getLanguage`, exactly as before the call (the whole state is
the input state); `setLanguage(null)` and `setLanguage` of a loaded
locale succeed and update `getLanguage` accordingly. -/
theorem setLanguage_atomic (st : Ti18n) :
    (∀ L, hasLocale st L = false →
      setLanguage st (some L) = (st, some (errLocaleNotLoaded L)) ∧
      getLanguage (setLanguage st (some L)).1 = getLanguage st) ∧
    (setLanguage st none = ({ st with currentLanguage := none }, none) ∧
      getLanguage (setLanguage st none).1 = none) ∧
    (∀ L, hasLocale st L = true →
      setLanguage st (some L) = ({ st with currentLanguage := some L }, none) ∧
      getLanguage (setLanguage st (some L)).1 = some L) := by
  refine ⟨fun L hL => ?_, ⟨rfl, rfl⟩, fun L hL => ?_⟩
  · rw [setLanguage]
    rw [if_neg (by rw [hL]; exact Bool.false_ne_true)]
    exact ⟨rfl, rfl⟩
  · rw [setLanguage, if_pos hL]
    exact ⟨rfl, rfl⟩

/-- Witness for `setLanguage` atomicity: setting the unloaded locale
"fr" on a fresh instance fails and leaves the language unchanged, while
setting the loaded locale "en" succeeds. -/
theorem setLanguage_atomic_witness :
    (setLanguage defaultTi18n (some (str "fr")) =
      (defaultTi18n, some (errLocaleNotLoaded (str "fr"))) ∧
     getLanguage (setLanguage defaultTi18n (some (str "fr"))).1 =
       getLanguage defaultTi18n) ∧
    (setLanguage stNoKeys (some (str "en")) =
      ({ stNoKeys with currentLanguage := some (str "en") }, none) ∧
     getLanguage (setLanguage stNoKeys (some (str "en"))).1 =
       some (str "en")) :=
  ⟨(setLanguage_atomic defaultTi18n).1 (str "fr") (by decide),
   (setLanguage_atomic stNoKeys).2.2 (str "en") (by decide)⟩

/-- C8 (amended): when the canonical key set is empty, `validateLocale`
returns `null` and leaves the state unchanged for every locale — no
report (and in particular no report with coverage 1) is produced. -/
theorem validateLocale_empty_keys_none (st : Ti18n) (L : Str)
    (h : st._keys = []) :
    validateLocale st L = (none, st) :=
  validateLocale_empty st L h

/-- Witness for the empty-canonical-set theorem at a loaded locale. -/
theorem validateLocale_empty_keys_none_witness :
    validateLocale stNoKeys (str "en") = (none, stNoKeys) :=
  validateLocale_empty_keys_none stNoKeys (str "en") (by decide)

/-- C8 counterexample: the claim states that validating a loaded locale
under an empty canonical set yields a report with coverage 1 rather than
no report; but with locale "en" loaded and no canonical keys,
`validateLocale` yields `none` (and no report is cached). -/
theorem validateLocale_empty_keys_counterexample :
    hasLocale stNoKeys (str "en") = true ∧
    (validateLocale stNoKeys (str "en")).1 = none ∧
    getCoverageReport stNoKeys (str "en") = none := by
  decide

/-- C9: coverage does not imply translatability.  If a locale's
dictionary maps a canonical bare key `k` to the empty string, then any
report produced by `validateLocale` does not list `k` among
`missingKeys` (presence of the key suffices for coverage), yet
`translateTo(createKey(k), locale)` returns the missing-key sentinel
rather than the empty string. -/
theorem coverage_without_translatability (st : Ti18n) (L k : Str)
    (s0 : Char) (srest : Str) (hsep : st.separator = s0 :: srest)
    (hh : ∀ c ∈ st.header, c ≠ s0)
    (hk : occursB (s0 :: srest) k = false)
    (i18n : Internationalization) (hL : mapGet st.i18ns L = some i18n)
    (hdict : mapGet i18n.dictionary k = some []) :
    (∀ report, (validateLocale st L).1 = some report →
      k ∉ report.missingKeys) ∧
    translateTo st (createKey st k) L none =
      createKey st k ++ st.separator ++ L ++ st.separator ++
        str "error-missing-key" := by
  constructor
  · intro report hrep
    by_cases hkeys : st._keys = []
    · rw [validateLocale_empty st L hkeys] at hrep
      cases hrep
    · rw [validateLocale_eq st L i18n hkeys hL] at hrep
      have hrep' : computedReport st._keys i18n L = report := by
        simpa using hrep
      rw [← hrep']
      intro hmem
      have hpred := (List.mem_filter.mp hmem).2
      rw [decide_eq_true_eq] at hpred
      exact hpred (mapGet_some_mem i18n.dictionary k [] hdict)
  · exact translateTo_missing_key st k L none s0 srest hsep hh hk i18n hL
      (Or.inr hdict)

/-- Witness for C9 at `stEmptyValue`: "greeting" is canonical and mapped
to the empty string in locale "en"; the cached report has coverage 1 and
no missing keys, while translating the key yields the sentinel. -/
theorem coverage_without_translatability_witness :
    (∀ report, (validateLocale stEmptyValue (str "en")).1 = some report →
      str "greeting" ∉ report.missingKeys) ∧
    translateTo stEmptyValue (createKey stEmptyValue (str "greeting"))
      (str "en") none =
      createKey stEmptyValue (str "greeting") ++ stEmptyValue.separator ++
        str "en" ++ stEmptyValue.separator ++ str "error-missing-key" :=
  coverage_without_translatability stEmptyValue (str "en") (str "greeting")
    ':' [':'] (by decide) (by decide) (by decide)
    ⟨[], [(str "greeting", str "")]⟩ (by decide) (by decide)

/-- C10: Frame property of `loadLocale`.  Loading locale `L` leaves the
configuration, the canonical key list and the current global language
unchanged, leaves the data and cached coverage report of every other
locale `L' ≠ L` unchanged, replaces the entry for `L` with the ingested
data, and, when the canonical key set is empty, leaves the whole report
cache unchanged. -/
theorem loadLocale_frame (st : Ti18n) (L : Str)
    (data : InternationalizationData) :
    (loadLocale st L data).header = st.header ∧
    (loadLocale st L data).separator = st.separator ∧
    (loadLocale st L data)._keys = st._keys ∧
    (loadLocale st L data).currentLanguage = st.currentLanguage ∧
    (∀ L', L' ≠ L →
      mapGet (loadLocale st L data).i18ns L' = mapGet st.i18ns L') ∧
    (∀ L', L' ≠ L →
      mapGet (loadLocale st L data).coverageReports L' =
        mapGet st.coverageReports L') ∧
    mapGet (loadLocale st L data).i18ns L =
      some { languages := mapOfEntries
               (match data.languages with | none => [] | some ls => ls),
             dictionary := mapOfEntries
               (match data.dictionary with | none => [] | some d => d) } ∧
    (st._keys = [] →
      (loadLocale st L data).coverageReports = st.coverageReports) := by
  have hload : loadLocale st L data =
      (if st._keys.length > 0
        then (validateLocale
          { st with
              i18ns := mapSet st.i18ns L
                { languages := mapOfEntries
                    (match data.languages with | none => [] | some ls => ls),
                  dictionary := mapOfEntries
                    (match data.dictionary with | none => [] | some d => d) } }
          L).2
        else
          { st with
              i18ns := mapSet st.i18ns L
                { languages := mapOfEntries
                    (match data.languages with | none => [] | some ls => ls),
                  dictionary := mapOfEntries
                    (match data.dictionary with | none => [] | some d => d) } }) :=
    rfl
  rw [hload]
  by_cases hk : st._keys.length > 0
  · rw [if_pos hk]
    obtain ⟨vi, vh, vs, vk, vc⟩ := validateLocale_fields
      { st with
          i18ns := mapSet st.i18ns L
            { languages := mapOfEntries
                (match data.languages with | none => [] | some ls => ls),
              dictionary := mapOfEntries
                (match data.dictionary with | none => [] | some d => d) } } L
    refine ⟨vh, vs, vk, vc, ?_, ?_, ?_, ?_⟩
    · intro L' hne
      rw [vi]
      exact mapGet_mapSet_ne st.i18ns L L' _ hne
    · intro L' hne
      rcases validateLocale_reports_shape
        { st with
            i18ns := mapSet st.i18ns L
              { languages := mapOfEntries
                  (match data.languages with | none => [] | some ls => ls),
                dictionary := mapOfEntries
                  (match data.dictionary with | none => [] | some d => d) } }
        L with hr | ⟨rep, -, hr⟩
      · rw [hr]
      · rw [hr]
        exact mapGet_mapSet_ne st.coverageReports L L' rep hne
    · rw [vi]
      exact mapGet_mapSet_self st.i18ns L _
    · intro hke
      exact absurd (by rw [hke]; rfl : st._keys.length = 0) (Nat.pos_iff_ne_zero.mp hk)
  · rw [if_neg hk]
    refine ⟨rfl, rfl, rfl, rfl, ?_, fun L' _ => rfl, ?_, fun _ => rfl⟩
    · intro L' hne
      exact mapGet_mapSet_ne st.i18ns L L' _ hne
    · exact mapGet_mapSet_self st.i18ns L _

/-- Witness for the `loadLocale` frame property: re-loading locale "en"
on `stCoverage` leaves locale "es"'s data and cached report, the
canonical keys and the current language untouched, and stores the new
"en" entry. -/
theorem loadLocale_frame_witness :
    mapGet (loadLocale stCoverage (str "en")
        ⟨none, some [(str "greeting", str "Hi")]⟩).i18ns (str "es") =
      mapGet stCoverage.i18ns (str "es") ∧
    mapGet (loadLocale stCoverage (str "en")
        ⟨none, some [(str "greeting", str "Hi")]⟩).coverageReports (str "es") =
      mapGet stCoverage.coverageReports (str "es") ∧
    (loadLocale stCoverage (str "en")
        ⟨none, some [(str "greeting", str "Hi")]⟩)._keys = stCoverage._keys ∧
    (loadLocale stCoverage (str "en")
        ⟨none, some [(str "greeting", str "Hi")]⟩).currentLanguage =
      stCoverage.currentLanguage ∧
    mapGet (loadLocale stCoverage (str "en")
        ⟨none, some [(str "greeting", str "Hi")]⟩).i18ns (str "en") =
      some { languages := mapOfEntries [],
             dictionary := mapOfEntries [(str "greeting", str "Hi")] } :=
  ⟨(loadLocale_frame stCoverage (str "en")
      ⟨none, some [(str "greeting", str "Hi")]⟩).2.2.2.2.1 (str "es")
      (by decide),
   (loadLocale_frame stCoverage (str "en")
      ⟨none, some [(str "greeting", str "Hi")]⟩).2.2.2.2.2.1 (str "es")
      (by decide),
   (loadLocale_frame stCoverage (str "en")
      ⟨none, some [(str "greeting", str "Hi")]⟩).2.2.1,
   (loadLocale_frame stCoverage (str "en")
      ⟨none, some [(str "greeting", str "Hi")]⟩).2.2.2.1,
   (loadLocale_frame stCoverage (str "en")
      ⟨none, some [(str "greeting", str "Hi")]⟩).2.2.2.2.2.2.1⟩

end Ti18nSpec
